import Mathlib

/-!
Shallow embedding of the image-tagger repository (`images.py`, `config.py`,
`database.py`) together with proofs about its catalog, configuration and
persistence operations.

Conventions of the embedding:
* Python `None` / SQL `NULL` / pandas `NaN` string cells are `Option String`
  with `none` for the missing value.
* Methods that can raise return `Except`; the error constructors record which
  Python exception is raised.
* The pandas data frame `Images._images` is a `List TagRecord` in row order,
  `Images._ids` is the separate `List String` the class keeps for positional
  lookups, and the SQLite `tags` table is a `List TagRecord` of persisted rows.
* `hashlib.md5` is an external library call; the catalog construction is
  parameterised over the hash function `String → String` it provides.
-/

namespace ImageTagger

/-- An image tag record: one row of the in-memory catalog and of the `tags`
table.  `tags`, `remark`, `updated` are `Option String` (`none` models SQL
NULL / pandas NaN; `updated = none` means "untagged").  Timestamps are the
strings `YYYY-MM-DDTHH:MM:SS` written by `Images.store`; pandas compares such
object columns with Python string comparison, i.e. lexicographically. -/
structure TagRecord where
  id : String
  path : String
  tags : Option String
  remark : Option String
  updated : Option String
  deriving Repr, DecidableEq

/-- The ordering that pandas `sort_values(["updated", "path"])` actually uses
in `Images._load_images`: lexicographic on `(updated, path)` where a `none`
(NaN) `updated` sorts AFTER every non-null timestamp, because the pandas
default is `na_position="last"`. -/
def recOrd (a b : TagRecord) : Prop :=
  match a.updated, b.updated with
  | none, none => a.path ≤ b.path
  | none, some _ => False
  | some _, none => True
  | some u, some v => u < v ∨ (u = v ∧ a.path ≤ b.path)

instance recOrd.decidableRel : DecidableRel recOrd := by
  intro a b
  rcases ha : a.updated with _ | u <;> rcases hb : b.updated with _ | v <;>
    simp only [recOrd, ha, hb] <;> infer_instance

/-- The ordering the specification describes: `(updated, path)` with
nulls-FIRST semantics, untagged records before tagged ones. -/
def nullsFirstOrd (a b : TagRecord) : Prop :=
  match a.updated, b.updated with
  | none, none => a.path ≤ b.path
  | none, some _ => True
  | some _, none => False
  | some u, some v => u < v ∨ (u = v ∧ a.path ≤ b.path)

instance nullsFirstOrd.decidableRel : DecidableRel nullsFirstOrd := by
  intro a b
  rcases ha : a.updated with _ | u <;> rcases hb : b.updated with _ | v <;>
    simp only [nullsFirstOrd, ha, hb] <;> infer_instance

instance recOrd.isTotal : IsTotal TagRecord recOrd := by
  constructor
  intro a b
  rcases ha : a.updated with _ | u <;> rcases hb : b.updated with _ | v <;>
    simp only [recOrd, ha, hb]
  · exact le_total a.path b.path
  · exact Or.inr trivial
  · exact Or.inl trivial
  · rcases lt_trichotomy u v with h | h | h
    · exact Or.inl (Or.inl h)
    · subst h
      rcases le_total a.path b.path with h | h
      · exact Or.inl (Or.inr ⟨rfl, h⟩)
      · exact Or.inr (Or.inr ⟨rfl, h⟩)
    · exact Or.inr (Or.inl h)

instance recOrd.isTrans : IsTrans TagRecord recOrd := by
  constructor
  intro a b c hab hbc
  rcases ha : a.updated with _ | u <;> rcases hb : b.updated with _ | v <;>
    rcases hc : c.updated with _ | w <;>
    simp only [recOrd, ha, hb, hc] at hab hbc ⊢
  · exact le_trans hab hbc
  · rcases hab with h | ⟨he, hp⟩
    · rcases hbc with h2 | ⟨he2, hp2⟩
      · exact Or.inl (lt_trans h h2)
      · exact Or.inl (he2 ▸ h)
    · rcases hbc with h2 | ⟨he2, hp2⟩
      · exact Or.inl (he ▸ h2)
      · exact Or.inr ⟨he.trans he2, le_trans hp hp2⟩

/-- Errors the `Images` methods can raise.
`missingKeys` is the `KeyError` of `Images.store`'s required-key check,
`notFound` the `RuntimeError` of `Images.get`, `typeError` the Python
`TypeError` raised when `next_id`/`prev_id` compare the `None` returned by
`_get_index` against an `int`, and `indexError` an out-of-range list index. -/
inductive ImgError where
  | missingKeys
  | notFound
  | typeError
  | indexError
  deriving Repr, DecidableEq

/-- The state an `Images` instance holds: the catalog data frame
`self._images` (rows in order), the id list `self._ids` kept for positional
lookups, and the rows of the SQLite `tags` table behind `self._db`. -/
structure ImagesState where
  images : List TagRecord
  ids : List String
  db : List TagRecord
  deriving Repr, DecidableEq

namespace Images

/-- `set(untagged) - set(tagged["path"])` then sorting: each discovered path
whose path is not among the persisted rows' paths, one occurrence each
(`set` deduplicates; the arbitrary set iteration order is irrelevant because
the concatenation is sorted afterwards). -/
def newPaths (files : List String) (tagged : List TagRecord) : List String :=
  (files.filter (fun f => !(tagged.any (fun t => decide (t.path = f))))).dedup

/-- The fresh data frame row built for a newly discovered file: id is the
hash of the path, `tags`/`remark`/`updated` are absent (NaN). -/
def mkUntagged (hash : String → String) (p : String) : TagRecord :=
  { id := hash p, path := p, tags := none, remark := none, updated := none }

/-- `Images._load_images`, after the two external reads: `files` is the glob
result for the configured path/types, `tagged` the rows of
`SELECT * FROM tags`, `hash` the MD5 hex digest function of `Images._hash`.
Returns `none` for the `RuntimeError` raised when no image file is found;
otherwise the state whose catalog is persisted rows plus new untagged rows,
sorted by `sort_values(["updated", "path"])` (pandas default
`na_position="last"`), with `self._ids` derived from the sorted catalog. -/
def _load_images (hash : String → String) (files : List String)
    (tagged : List TagRecord) : Option ImagesState :=
  if files.isEmpty then none
  else
    let untagged := (newPaths files tagged).map (mkUntagged hash)
    let images := List.insertionSort recOrd (tagged ++ untagged)
    some { images := images, ids := images.map (·.id), db := tagged }

/-- `Images.first_untagged_id`: the id of the first catalog row whose
`updated` is NaN; if there is none, `self._ids[-1]`.  `none` models the
`IndexError` that `self._ids[-1]` raises on an empty catalog. -/
def first_untagged_id (st : ImagesState) : Option String :=
  match st.images.find? (fun r => r.updated.isNone) with
  | some r => some r.id
  | none => st.ids.getLast?

/-- `Images.get`: the first catalog row whose `id` equals `image_id`, or the
`RuntimeError` "Cannot find image with ID ..." when the selection is empty. -/
def get (st : ImagesState) (image_id : String) : Except ImgError TagRecord :=
  match st.images.find? (fun r => decide (r.id = image_id)) with
  | some r => Except.ok r
  | none => Except.error ImgError.notFound

/-- Python `list.index` guarded by `in`: the first position of `x`, `none`
when absent. -/
def listIndex : List String → String → Option Nat
  | [], _ => none
  | y :: ys, x => if y = x then some 0 else (listIndex ys x).map (· + 1)

/-- `Images._get_index`: index of `image_id` in `self._ids`, or `None`. -/
def _get_index (st : ImagesState) (image_id : String) : Option Nat :=
  listIndex st.ids image_id

/-- `Images.next_id`: `idx < len(self._ids) - 1` raises `TypeError` when
`_get_index` returned `None`; otherwise the succeeding id or `None` at the
upper boundary. -/
def next_id (st : ImagesState) (image_id : String) :
    Except ImgError (Option String) :=
  match _get_index st image_id with
  | none => Except.error ImgError.typeError
  | some idx =>
    if idx < st.ids.length - 1 then
      match st.ids.get? (idx + 1) with
      | some y => Except.ok (some y)
      | none => Except.error ImgError.indexError
    else Except.ok none

/-- `Images.prev_id`: `idx > 0` raises `TypeError` when `_get_index`
returned `None`; otherwise the preceding id or `None` at the lower
boundary. -/
def prev_id (st : ImagesState) (image_id : String) :
    Except ImgError (Option String) :=
  match _get_index st image_id with
  | none => Except.error ImgError.typeError
  | some idx =>
    if idx > 0 then
      match st.ids.get? (idx - 1) with
      | some y => Except.ok (some y)
      | none => Except.error ImgError.indexError
    else Except.ok none

/-- Python `!=` between an incoming string field and a stored cell: a stored
NaN/None compares unequal to every string. -/
def pyNeq (d : String) (o : Option String) : Bool :=
  match o with
  | none => true
  | some s => decide (d ≠ s)

/-- The dict passed to `Images.store`; `none` in a field means the key is
absent from the dict.  Present values are strings, as the docstring
requires ("All values should be provided as string values"). -/
structure StoreInput where
  id : Option String
  tags : Option String
  remark : Option String
  deriving Repr, DecidableEq

/-- The upsert of `Images._write_database`:
`INSERT ... ON CONFLICT (id) DO UPDATE SET tags, remark, updated` — on a
conflicting primary key only `tags`, `remark`, `updated` change. -/
def upsert (rows : List TagRecord) (r : TagRecord) : List TagRecord :=
  if rows.any (fun x => decide (x.id = r.id)) then
    rows.map (fun x =>
      if x.id = r.id then
        { x with tags := r.tags, remark := r.remark, updated := r.updated }
      else x)
  else rows ++ [r]

/-- `Images._write_database`: its required-key check always passes here
because the record carries all five fields; the body is the upsert. -/
def _write_database (db : List TagRecord) (r : TagRecord) : List TagRecord :=
  upsert db r

/-- `Images.store` with `now` the formatted `datetime.now()` string.
Checks the required keys, looks the record up (the `RuntimeError` of
`Images.get` propagates; the subsequent `if not old` check is dead code),
and only when `tags` or `remark` differs from the stored cells stamps
`updated := now`, carries the old `path` forward, overwrites the data frame
row at the `_get_index` position and upserts into the database.  When
`_get_index` yields `None` (impossible while `_ids` mirrors the catalog)
`DataFrame.update` aligns on the label `None`, matches no row, and only the
database write happens. -/
def store (st : ImagesState) (data : StoreInput) (now : String) :
    Except ImgError ImagesState :=
  match data.id, data.tags, data.remark with
  | some di, some dt, some dr =>
    match get st di with
    | Except.error e => Except.error e
    | Except.ok old =>
      if pyNeq dt old.tags || pyNeq dr old.remark then
        let newRec : TagRecord :=
          { id := di, path := old.path, tags := some dt, remark := some dr,
            updated := some now }
        match _get_index st di with
        | some idx =>
          Except.ok { images := st.images.set idx newRec, ids := st.ids,
                      db := _write_database st.db newRec }
        | none =>
          Except.ok { images := st.images, ids := st.ids,
                      db := _write_database st.db newRec }
      else Except.ok st
  | _, _, _ => Except.error ImgError.missingKeys

/-- `Images.dump_data`: the catalog rows whose `updated` is not NaN, in
catalog order. -/
def dump_data (st : ImagesState) : List TagRecord :=
  st.images.filter (fun r => !r.updated.isNone)

end Images

/-- A value of the YAML configuration document: a scalar string, a sequence,
or a mapping (association list in document order, keys unique as in a
Python dict). -/
inductive ConfigVal where
  | str (s : String)
  | seq (items : List String)
  | map (entries : List (String × ConfigVal))

/-- Errors `ConfigReader` methods can raise: the `ValueError` for an
unrecognised `not_found` argument, the `KeyError` of the `error` policy (and
of indexing a mapping with an absent key), and the `TypeError` Python raises
when a traversal step indexes a non-mapping value. -/
inductive CfgError where
  | invalidPolicy
  | keyNotFound
  | typeError
  deriving Repr, DecidableEq

namespace ConfigReader

/-- Python's contiguous-substring test `needle in hay` on strings. -/
def strContains (needle : List Char) : (hay : List Char) → Bool
  | [] => needle.isEmpty
  | c :: t => needle.isPrefixOf (c :: t) || strContains needle t

/-- Python `key in section` for the three value shapes: key membership for a
dict, element membership for a list, substring test for a string. -/
def pyContains (sect : ConfigVal) (key : String) : Bool :=
  match sect with
  | ConfigVal.map es => es.any (fun e => decide (e.1 = key))
  | ConfigVal.seq items => items.any (fun v => decide (v = key))
  | ConfigVal.str s => strContains key.toList s.toList

/-- `section[key]`: mapping lookup; a `KeyError` if the key is absent and a
`TypeError` when the value is not a mapping (indexing a list or string with
a string key). -/
def pyGetItem (sect : ConfigVal) (key : String) :
    Except CfgError ConfigVal :=
  match sect with
  | ConfigVal.map es =>
    match es.find? (fun e => decide (e.1 = key)) with
    | some e => Except.ok e.2
    | none => Except.error CfgError.keyNotFound
  | _ => Except.error CfgError.typeError

/-- `section[key] = value` on a mapping (replace an existing entry, append
otherwise, as a Python dict would); a `TypeError` on non-mappings. -/
def pySetItem (sect : ConfigVal) (key : String) (value : ConfigVal) :
    Except CfgError ConfigVal :=
  match sect with
  | ConfigVal.map es =>
    if es.any (fun e => decide (e.1 = key)) then
      Except.ok (ConfigVal.map
        (es.map (fun e => if e.1 = key then (e.1, value) else e)))
    else Except.ok (ConfigVal.map (es ++ [(key, value)]))
  | _ => Except.error CfgError.typeError

/-- `ConfigReader._check_key`: first validates `not_found` against
`("error", "warn", "silent")` and raises `ValueError` otherwise; then tests
key presence, raising `KeyError` under the `error` policy and returning
`False` under `warn` (the warning is a side effect) and `silent`. -/
def _check_key (sect : ConfigVal) (key : String) (not_found : String) :
    Except CfgError Bool :=
  if not_found = "error" ∨ not_found = "warn" ∨ not_found = "silent" then
    if pyContains sect key then Except.ok true
    else if not_found = "error" then Except.error CfgError.keyNotFound
    else Except.ok false
  else Except.error CfgError.invalidPolicy

/-- The traversal loop of `ConfigReader.get` over the slash-split segments
of the path: Python's `while "/" in path: key, path = path.split("/", 1)`
walks every segment but the last through `_check_key`/indexing, then the
last segment is looked up and returned, with `default` whenever a check
reports an absent key.  The `[]` case is unreachable: `split` never yields
an empty list. -/
def getSegs (parent : ConfigVal) (segs : List String)
    (dflt : Option ConfigVal) (not_found : String) :
    Except CfgError (Option ConfigVal) :=
  match segs with
  | [] => Except.ok dflt
  | [last] =>
    match _check_key parent last not_found with
    | Except.error e => Except.error e
    | Except.ok true => (pyGetItem parent last).map some
    | Except.ok false => Except.ok dflt
  | key :: rest =>
    match _check_key parent key not_found with
    | Except.error e => Except.error e
    | Except.ok true =>
      match pyGetItem parent key with
      | Except.error e => Except.error e
      | Except.ok child => getSegs child rest dflt not_found
    | Except.ok false => Except.ok dflt

/-- `ConfigReader.get`, with the path already split on `"/"` (Python path
strings correspond to non-empty segment lists). -/
def get (config : ConfigVal) (segs : List String) (dflt : Option ConfigVal)
    (not_found : String) : Except CfgError (Option ConfigVal) :=
  getSegs config segs dflt not_found

/-- The traversal loop of `ConfigReader.set`: same walk as `get`; at the
last segment, if the key exists the leaf is overwritten and `True`
returned, otherwise `False`.  Mutation of the nested dict in place is
modelled by rebuilding the enclosing mappings. -/
def setSegs (parent : ConfigVal) (segs : List String) (value : ConfigVal)
    (not_found : String) : Except CfgError (Bool × ConfigVal) :=
  match segs with
  | [] => Except.ok (false, parent)
  | [last] =>
    match _check_key parent last not_found with
    | Except.error e => Except.error e
    | Except.ok true => (pySetItem parent last value).map (fun p => (true, p))
    | Except.ok false => Except.ok (false, parent)
  | key :: rest =>
    match _check_key parent key not_found with
    | Except.error e => Except.error e
    | Except.ok true =>
      match pyGetItem parent key with
      | Except.error e => Except.error e
      | Except.ok child =>
        match setSegs child rest value not_found with
        | Except.error e => Except.error e
        | Except.ok (b, child2) =>
          match pySetItem parent key child2 with
          | Except.error e => Except.error e
          | Except.ok parent2 => Except.ok (b, parent2)
    | Except.ok false => Except.ok (false, parent)

/-- `ConfigReader.set`, with the path already split on `"/"`. -/
def set (config : ConfigVal) (segs : List String) (value : ConfigVal)
    (not_found : String) : Except CfgError (Bool × ConfigVal) :=
  setSegs config segs value not_found

end ConfigReader

/-- Errors of the filesystem primitives used by `Database._create_path`. -/
inductive OSErr where
  | fileExists
  | fileNotFound
  deriving Repr, DecidableEq

namespace Database

/-- `os.path.dirname` (posix): the part of the path before the final
component; trailing slashes of the head are stripped unless the head
consists only of slashes.  `dirname "a/b.db" = "a"`,
`dirname "/b.db" = "/"`, `dirname "b.db" = ""`. -/
def dirname (p : String) : String :=
  let cs := p.toList
  let tailLen := (cs.reverse.takeWhile (fun c => decide (c ≠ '/'))).length
  let head := cs.take (cs.length - tailLen)
  if head ≠ [] ∧ head.any (fun c => decide (c ≠ '/')) then
    String.mk ((head.reverse.dropWhile (fun c => decide (c = '/'))).reverse)
  else String.mk head

/-- `os.makedirs(path)` over a directory set `dirs`: raises
`FileNotFoundError` for the empty path (`os.makedirs("")` always fails with
errno 2), `FileExistsError` when the directory already exists, and
otherwise creates the directory.  Modelled from the documented behaviour of
the external OS primitive; creation of intermediate parents is irrelevant
to the claims and elided. -/
def makedirs (dirs : List String) (path : String) :
    Except OSErr (List String) :=
  if path = "" then Except.error OSErr.fileNotFound
  else if path ∈ dirs then Except.error OSErr.fileExists
  else Except.ok (path :: dirs)

/-- `Database._create_path`: `os.makedirs(os.path.dirname(filepath))` with
only `FileExistsError` caught — any other exception propagates out of the
`Database` constructor. -/
def _create_path (dirs : List String) (filepath : String) :
    Except OSErr (List String) :=
  match makedirs dirs (dirname filepath) with
  | Except.error OSErr.fileExists => Except.ok dirs
  | Except.error e => Except.error e
  | Except.ok dirs2 => Except.ok dirs2

end Database

/-! Helper lemmas about the embedded operations. -/

/-- `find?` returns the element at the first position satisfying the
predicate. -/
theorem find?_eq_some_of_first {α : Type} (p : α → Bool) :
    ∀ (l : List α) (i : Nat) (hi : i < l.length),
      p (l.get ⟨i, hi⟩) = true →
      (∀ (j : Nat) (hj : j < l.length), j < i → p (l.get ⟨j, hj⟩) = false) →
      l.find? p = some (l.get ⟨i, hi⟩)
  | [], i, hi, _, _ => absurd hi (by simp)
  | x :: xs, 0, _, hp, _ => List.find?_cons_of_pos _ hp
  | x :: xs, i + 1, hi, hp, hmin => by
      have hx : p x = false := hmin 0 (by simp) (Nat.succ_pos i)
      have ih := find?_eq_some_of_first p xs i (by simpa using hi) hp
        (fun j hj hji => hmin (j + 1) (by simpa using hj) (by omega))
      rw [List.find?_cons_of_neg _ (by simp [hx])]
      exact ih

theorem listIndex_eq_none_iff (l : List String) (x : String) :
    Images.listIndex l x = none ↔ x ∉ l := by
  induction l with
  | nil => simp [Images.listIndex]
  | cons y ys ih =>
    by_cases h : y = x
    · simp [Images.listIndex, h]
    · simp only [Images.listIndex, if_neg h, Option.map_eq_none', ih,
        List.mem_cons, not_or]
      constructor
      · intro hx
        exact ⟨fun he => h he.symm, hx⟩
      · intro hx
        exact hx.2

/-- In a duplicate-free id list, `list.index` recovers the position of any
element. -/
theorem listIndex_get_of_nodup :
    ∀ (l : List String), l.Nodup → ∀ (i : Nat) (hi : i < l.length),
      Images.listIndex l (l.get ⟨i, hi⟩) = some i
  | [], _, i, hi => absurd hi (by simp)
  | y :: ys, hnd, 0, _ => by simp [Images.listIndex]
  | y :: ys, hnd, i + 1, hi => by
      have hi' : i < ys.length := by simpa using hi
      have hmem : ys.get ⟨i, hi'⟩ ∈ ys := List.get_mem _ _ _
      have hne : ¬ y = ys.get ⟨i, hi'⟩ := fun he =>
        (List.nodup_cons.mp hnd).1 (he ▸ hmem)
      have ih := listIndex_get_of_nodup ys (List.nodup_cons.mp hnd).2 i hi'
      show (if y = ys.get ⟨i, hi'⟩ then some 0
        else (Images.listIndex ys (ys.get ⟨i, hi'⟩)).map (· + 1)) = some (i + 1)
      rw [if_neg hne, ih]
      rfl

theorem listIndex_isSome_of_mem {l : List String} {x : String} (hx : x ∈ l) :
    ∃ i, Images.listIndex l x = some i := by
  rcases he : Images.listIndex l x with _ | i
  · exact absurd ((listIndex_eq_none_iff l x).mp he) (not_not.mpr hx)
  · exact ⟨i, rfl⟩

/-- Overwriting the record at the first position whose id is `di` (the
position `list.index` reports) makes that record the first hit of a
subsequent lookup by `di`. -/
theorem find?_set_listIndex :
    ∀ (images : List TagRecord) (ids : List String) (di : String) (idx : Nat)
      (nr : TagRecord), ids = images.map (·.id) →
      Images.listIndex ids di = some idx → nr.id = di →
      (images.set idx nr).find? (fun r => decide (r.id = di)) = some nr
  | [], ids, di, idx, nr, hids, hidx, _ => by
      subst hids; simp [Images.listIndex] at hidx
  | r :: rest, ids, di, idx, nr, hids, hidx, hnr => by
      subst hids
      by_cases h : r.id = di
      · simp [Images.listIndex, h] at hidx
        subst hidx
        simp [List.find?_cons, hnr]
      · simp [Images.listIndex, h] at hidx
        rcases hidx with ⟨j, hj, rfl⟩
        have ih := find?_set_listIndex rest (rest.map (·.id)) di j nr rfl hj hnr
        simp [List.find?_cons, h, ih]

/-- Membership in the new/untagged path set: exactly the discovered paths
not already present among the persisted rows' paths. -/
theorem mem_newPaths (files : List String) (tagged : List TagRecord)
    (p : String) :
    p ∈ Images.newPaths files tagged ↔
      p ∈ files ∧ ∀ t ∈ tagged, t.path ≠ p := by
  unfold Images.newPaths
  rw [List.mem_dedup, List.mem_filter]
  simp [List.any_eq_true]

/-! Claim theorems. -/

/-- C1, as stated, is false at a concrete input: with one persisted tagged
row for "b.jpg" and one discovered file "a.jpg", the initialized catalog is
`[tagged b-row, untagged a-row]` — the record with null `updated` comes
second, so the catalog is not ordered with nulls-first semantics (pandas
`sort_values` defaults to `na_position="last"`, putting NaN last). -/
theorem catalog_not_nulls_first :
    (Images._load_images (fun s => s) ["a.jpg"]
        [⟨"hb", "b.jpg", some "x", some "y", some "2024-01-01T00:00:00"⟩]).map
        (fun st => decide (st.images.Pairwise nullsFirstOrd)) = some false
    ∧ (Images._load_images (fun s => s) ["a.jpg"]
        [⟨"hb", "b.jpg", some "x", some "y", some "2024-01-01T00:00:00"⟩]).map
        (fun st => st.images.map (fun r => r.updated.isNone)) =
      some [false, true] := by
  constructor <;> rfl

/-- C1 amended: after initialization the catalog is sorted by the total
order `(updated, path)` with nulls-LAST semantics for `updated`: every
record with non-null `updated` (tagged) precedes every record with null
`updated` (untagged), and records with equal `updated` values — including
both null — are ordered by `path` (`recOrd`). -/
theorem catalog_sorted_nulls_last (hash : String → String)
    (files : List String) (tagged : List TagRecord) (st : ImagesState)
    (h : Images._load_images hash files tagged = some st) :
    st.images.Pairwise recOrd := by
  unfold Images._load_images at h
  split at h
  · exact absurd h (by simp)
  · cases Option.some.inj h
    exact List.sorted_insertionSort recOrd _

/-- Witness for `catalog_sorted_nulls_last` at a concrete input. -/
theorem catalog_sorted_nulls_last_witness :
    List.Pairwise recOrd
      [⟨"hb", "b.jpg", some "x", some "y", some "2024-01-01T00:00:00"⟩,
       ⟨"a.jpg", "a.jpg", none, none, none⟩] :=
  catalog_sorted_nulls_last (fun s => s) ["a.jpg"]
    [⟨"hb", "b.jpg", some "x", some "y", some "2024-01-01T00:00:00"⟩]
    ⟨[⟨"hb", "b.jpg", some "x", some "y", some "2024-01-01T00:00:00"⟩,
      ⟨"a.jpg", "a.jpg", none, none, none⟩],
     ["hb", "a.jpg"],
     [⟨"hb", "b.jpg", some "x", some "y", some "2024-01-01T00:00:00"⟩]⟩
    rfl

/-- C4: for every input dict lacking at least one of the keys `id`, `tags`,
`remark`, `store` fails with the missing-field `KeyError`; the check runs
before any lookup or mutation, so the returned computation carries no
changed catalog and no database write. -/
theorem store_missing_field_error (st : ImagesState)
    (data : Images.StoreInput) (now : String)
    (h : data.id = none ∨ data.tags = none ∨ data.remark = none) :
    Images.store st data now = Except.error ImgError.missingKeys := by
  obtain ⟨i, t, r⟩ := data
  cases i <;> cases t <;> cases r <;> simp_all [Images.store]

/-- Witness for `store_missing_field_error`: a dict without "remark". -/
theorem store_missing_field_error_witness :
    Images.store ⟨[⟨"ha", "a.jpg", none, none, none⟩], ["ha"], []⟩
        ⟨some "ha", some "cat", none⟩ "2025-01-01T00:00:00"
      = Except.error ImgError.missingKeys :=
  store_missing_field_error _ _ _ (Or.inr (Or.inr rfl))

/-- C6: for an identifier absent from the catalog, `get` raises the
not-found `RuntimeError`, and `store` with that identifier (all required
fields present) propagates the same error from its internal `get` call; the
error result carries no catalog or database mutation. -/
theorem unknown_id_not_found (st : ImagesState) (di dt dr now : String)
    (habs : ∀ r ∈ st.images, r.id ≠ di) :
    Images.get st di = Except.error ImgError.notFound ∧
    Images.store st ⟨some di, some dt, some dr⟩ now
      = Except.error ImgError.notFound := by
  have hf : st.images.find? (fun r => decide (r.id = di)) = none :=
    List.find?_eq_none.mpr (by
      intro x hx
      simpa using habs x hx)
  constructor
  · simp [Images.get, hf]
  · simp [Images.store, Images.get, hf]

/-- Witness for `unknown_id_not_found` at a concrete input. -/
theorem unknown_id_not_found_witness :
    Images.get ⟨[⟨"ha", "a.jpg", none, none, none⟩], ["ha"], []⟩ "zz"
      = Except.error ImgError.notFound ∧
    Images.store ⟨[⟨"ha", "a.jpg", none, none, none⟩], ["ha"], []⟩
        ⟨some "zz", some "cat", some "hi"⟩ "2025-01-01T00:00:00"
      = Except.error ImgError.notFound :=
  unknown_id_not_found ⟨[⟨"ha", "a.jpg", none, none, none⟩], ["ha"], []⟩
    "zz" "cat" "hi" "2025-01-01T00:00:00" (by decide)

/-- C9: the code contradicts the claim at the repository's own default
database path.  `os.path.dirname "image_tags.db" = ""`, and
`os.makedirs("")` raises `FileNotFoundError`, which the
`except FileExistsError` handler does not catch — so the `Database`
constructor fails for a bare filename even though the containing directory
(the working directory, present in the directory set) exists. -/
theorem create_path_bare_filename_fails :
    Database.dirname "image_tags.db" = "" ∧
    Database._create_path ["."] "image_tags.db"
      = Except.error OSErr.fileNotFound := by
  constructor <;> rfl

/-- C10: for an identifier absent from the catalog, `_get_index` returns
`None`, and the `idx < len(...) - 1` / `idx > 0` comparisons in
`next_id`/`prev_id` raise `TypeError`: neither navigation call can return
an identifier. -/
theorem nav_unknown_id_type_error (st : ImagesState) (x : String)
    (hids : st.ids = st.images.map (·.id))
    (habs : ∀ r ∈ st.images, r.id ≠ x) :
    Images._get_index st x = none ∧
    Images.next_id st x = Except.error ImgError.typeError ∧
    Images.prev_id st x = Except.error ImgError.typeError := by
  have hnone : Images.listIndex st.ids x = none := by
    rw [listIndex_eq_none_iff, hids]
    rintro hmem
    rw [List.mem_map] at hmem
    obtain ⟨r, hr, hrx⟩ := hmem
    exact habs r hr hrx
  refine ⟨hnone, ?_, ?_⟩ <;>
    simp [Images.next_id, Images.prev_id, Images._get_index, hnone]

/-- Witness for `nav_unknown_id_type_error` at a concrete input. -/
theorem nav_unknown_id_type_error_witness :
    Images._get_index ⟨[⟨"ha", "a.jpg", none, none, none⟩], ["ha"], []⟩ "zz"
      = none ∧
    Images.next_id ⟨[⟨"ha", "a.jpg", none, none, none⟩], ["ha"], []⟩ "zz"
      = Except.error ImgError.typeError ∧
    Images.prev_id ⟨[⟨"ha", "a.jpg", none, none, none⟩], ["ha"], []⟩ "zz"
      = Except.error ImgError.typeError :=
  nav_unknown_id_type_error ⟨[⟨"ha", "a.jpg", none, none, none⟩], ["ha"], []⟩
    "zz" rfl (by decide)

/-- C2: on a non-empty catalog whose id list mirrors the catalog (the
invariant `_load_images` establishes), `first_untagged_id` returns the id of
the first record with null `updated` in catalog order, and when every
record is tagged it returns the id of the last record in catalog order. -/
theorem first_untagged_id_spec (st : ImagesState)
    (hids : st.ids = st.images.map (·.id)) (hne : st.images ≠ []) :
    (∀ (i : Nat) (hi : i < st.images.length),
        (st.images.get ⟨i, hi⟩).updated = none →
        (∀ (j : Nat) (hj : j < st.images.length), j < i →
          (st.images.get ⟨j, hj⟩).updated ≠ none) →
        Images.first_untagged_id st = some (st.images.get ⟨i, hi⟩).id)
    ∧ ((∀ r ∈ st.images, r.updated ≠ none) →
        Images.first_untagged_id st = some (st.images.getLast hne).id) := by
  constructor
  · intro i hi hupd hmin
    have hfind := find?_eq_some_of_first (fun r => r.updated.isNone)
      st.images i hi (Option.isNone_iff_eq_none.mpr hupd)
      (fun j hj hji => by
        simp only [Option.isNone_eq_false_iff, Option.isSome_iff_ne_none]
        exact hmin j hj hji)
    simp [Images.first_untagged_id, hfind]
  · intro hall
    have hfind : st.images.find? (fun r => r.updated.isNone) = none :=
      List.find?_eq_none.mpr (fun r hr => by
        simpa [Option.isNone_eq_false_iff] using hall r hr)
    have hlast : st.ids.getLast? = some (st.images.getLast hne).id := by
      rw [hids, List.getLast?_map]
      rw [List.getLast?_eq_getLast st.images hne]
      rfl
    simp [Images.first_untagged_id, hfind, hlast]

/-- Witness for `first_untagged_id_spec` at a concrete input. -/
theorem first_untagged_id_spec_witness :
    Images.first_untagged_id
        ⟨[⟨"hb", "b.jpg", some "x", some "y", some "2024-01-01T00:00:00"⟩,
          ⟨"ha", "a.jpg", none, none, none⟩], ["hb", "ha"], []⟩
      = some "ha" :=
  (first_untagged_id_spec
      ⟨[⟨"hb", "b.jpg", some "x", some "y", some "2024-01-01T00:00:00"⟩,
        ⟨"ha", "a.jpg", none, none, none⟩], ["hb", "ha"], []⟩
      rfl (by decide)).1 1 (by decide) rfl
    (fun j hj hji => by
      have hj0 : j = 0 := by omega
      subst hj0
      exact fun hcon => Option.noConfusion hcon)

/-- C5: `get` and `set` with a `not_found` policy outside
{"silent", "warn", "error"} always fail with the invalid-argument
`ValueError`, whatever the configuration and whether or not the path
exists: the policy is validated on the very first `_check_key` call. -/
theorem invalid_policy_errors (config : ConfigVal) (segs : List String)
    (dflt : Option ConfigVal) (value : ConfigVal) (nf : String)
    (hsegs : segs ≠ [])
    (hnf : nf ≠ "error" ∧ nf ≠ "warn" ∧ nf ≠ "silent") :
    ConfigReader.get config segs dflt nf
      = Except.error CfgError.invalidPolicy ∧
    ConfigReader.set config segs value nf
      = Except.error CfgError.invalidPolicy := by
  have hck : ∀ (sect : ConfigVal) (key : String),
      ConfigReader._check_key sect key nf
        = Except.error CfgError.invalidPolicy := by
    intro sect key
    unfold ConfigReader._check_key
    rw [if_neg]
    rintro (h | h | h)
    · exact hnf.1 h
    · exact hnf.2.1 h
    · exact hnf.2.2 h
  rcases segs with _ | ⟨k, _ | ⟨k2, rest⟩⟩
  · exact absurd rfl hsegs
  · constructor <;>
      simp [ConfigReader.get, ConfigReader.set, ConfigReader.getSegs,
        ConfigReader.setSegs, hck]
  · constructor <;>
      simp [ConfigReader.get, ConfigReader.set, ConfigReader.getSegs,
        ConfigReader.setSegs, hck]

/-- Witness for `invalid_policy_errors`: policy "bogus" on an existing
one-segment path. -/
theorem invalid_policy_errors_witness :
    ConfigReader.get (ConfigVal.map [("a", ConfigVal.str "1")]) ["a"]
        none "bogus" = Except.error CfgError.invalidPolicy ∧
    ConfigReader.set (ConfigVal.map [("a", ConfigVal.str "1")]) ["a"]
        (ConfigVal.str "2") "bogus" = Except.error CfgError.invalidPolicy :=
  invalid_policy_errors (ConfigVal.map [("a", ConfigVal.str "1")]) ["a"]
    none (ConfigVal.str "2") "bogus" (by simp)
    ⟨by decide, by decide, by decide⟩

/-- C8: in a catalog whose id list is duplicate-free, `next_id` at any
non-final position `i` returns the id at `i + 1`, `prev_id` of that id
returns the id at `i` (adjacent-navigation round trip), and at the
boundaries `next_id` of the last id and `prev_id` of the first id return
`None`. -/
theorem nav_adjacent_roundtrip (st : ImagesState) (hnd : st.ids.Nodup) :
    (∀ (i : Nat) (hi : i + 1 < st.ids.length),
        Images.next_id st (st.ids.get ⟨i, Nat.lt_of_succ_lt hi⟩)
          = Except.ok (some (st.ids.get ⟨i + 1, hi⟩)) ∧
        Images.prev_id st (st.ids.get ⟨i + 1, hi⟩)
          = Except.ok (some (st.ids.get ⟨i, Nat.lt_of_succ_lt hi⟩)))
    ∧ (∀ h : st.ids ≠ [],
        Images.next_id st (st.ids.getLast h) = Except.ok none)
    ∧ (∀ h : st.ids ≠ [],
        Images.prev_id st (st.ids.head h) = Except.ok none) := by
  refine ⟨fun i hi => ⟨?_, ?_⟩, fun h => ?_, fun h => ?_⟩
  · have hidx := listIndex_get_of_nodup st.ids hnd i (Nat.lt_of_succ_lt hi)
    simp only [List.get_eq_getElem] at hidx ⊢
    have hlt : i < st.ids.length - 1 := by omega
    simp [Images.next_id, Images._get_index, hidx, hlt,
      List.getElem?_eq_getElem hi]
  · have hidx := listIndex_get_of_nodup st.ids hnd (i + 1) hi
    simp only [List.get_eq_getElem] at hidx ⊢
    have hget := List.getElem?_eq_getElem (Nat.lt_of_succ_lt hi)
    simp [Images.prev_id, Images._get_index, hidx, hget]
  · have hlen : st.ids.length - 1 < st.ids.length := by
      have : st.ids.length ≠ 0 := by
        simpa [List.length_eq_zero] using h
      omega
    have hlast : st.ids.getLast h = st.ids[st.ids.length - 1] :=
      List.getLast_eq_getElem st.ids h
    have hidx := listIndex_get_of_nodup st.ids hnd (st.ids.length - 1) hlen
    simp only [List.get_eq_getElem] at hidx
    rw [hlast]
    simp [Images.next_id, Images._get_index, hidx]
  · have hlen : 0 < st.ids.length := by
      have : st.ids.length ≠ 0 := by
        simpa [List.length_eq_zero] using h
      omega
    have hhead : st.ids.head h = st.ids[0] := List.head_eq_getElem_zero h
    have hidx := listIndex_get_of_nodup st.ids hnd 0 hlen
    simp only [List.get_eq_getElem] at hidx
    rw [hhead]
    simp [Images.prev_id, Images._get_index, hidx]

/-- Witness for `nav_adjacent_roundtrip` at a concrete input. -/
theorem nav_adjacent_roundtrip_witness :
    Images.next_id ⟨[⟨"ha", "a.jpg", none, none, none⟩,
          ⟨"hb", "b.jpg", none, none, none⟩], ["ha", "hb"], []⟩ "ha"
      = Except.ok (some "hb") ∧
    Images.prev_id ⟨[⟨"ha", "a.jpg", none, none, none⟩,
          ⟨"hb", "b.jpg", none, none, none⟩], ["ha", "hb"], []⟩ "hb"
      = Except.ok (some "ha") :=
  (nav_adjacent_roundtrip ⟨[⟨"ha", "a.jpg", none, none, none⟩,
      ⟨"hb", "b.jpg", none, none, none⟩], ["ha", "hb"], []⟩
      (by decide)).1 0 (by decide)

/-- `Images.get` succeeds exactly when the row lookup finds a record. -/
theorem get_eq_ok_iff (st : ImagesState) (di : String) (r : TagRecord) :
    Images.get st di = Except.ok r ↔
      st.images.find? (fun x => decide (x.id = di)) = some r := by
  unfold Images.get
  split
  next q heq => simp [heq]
  next heq => simp [heq]

/-- A stored cell compares `==` (not `!=`) to an incoming string exactly
when it holds that string. -/
theorem pyNeq_eq_false_iff (d : String) (o : Option String) :
    Images.pyNeq d o = false ↔ o = some d := by
  rcases o with _ | s
  · simp [Images.pyNeq]
  · simp only [Images.pyNeq, decide_eq_false_iff_not, not_not,
      Option.some.injEq]
    exact eq_comm

/-- C3: storing `tags`/`remark` equal to the record's currently stored
values is a no-op — the result is exactly the input state: the record's
`updated` stays, the catalog is unchanged, and the database row list is
unchanged (no write).  Moreover, after any successful `store`, repeating
the identical call is such a no-op, so a second identical `store` does not
change `updated`. -/
theorem store_unchanged_noop (st : ImagesState) (di dt dr now now2 : String) :
    (∀ r : TagRecord, Images.get st di = Except.ok r → r.tags = some dt →
        r.remark = some dr →
        Images.store st ⟨some di, some dt, some dr⟩ now = Except.ok st)
    ∧ (st.ids = st.images.map (·.id) →
        ∀ st' : ImagesState,
          Images.store st ⟨some di, some dt, some dr⟩ now = Except.ok st' →
          Images.store st' ⟨some di, some dt, some dr⟩ now2
            = Except.ok st') := by
  have noop : ∀ (s : ImagesState) (r : TagRecord) (nw : String),
      Images.get s di = Except.ok r → r.tags = some dt →
      r.remark = some dr →
      Images.store s ⟨some di, some dt, some dr⟩ nw = Except.ok s := by
    intro s r nw hget hta hre
    simp [Images.store, hget, hta, hre, Images.pyNeq]
  constructor
  · intro r hget hta hre
    exact noop st r now hget hta hre
  · intro hids st' hst
    simp only [Images.store] at hst
    split at hst
    next e heq => exact Except.noConfusion hst
    next old heq =>
      have hfind := (get_eq_ok_iff st di old).mp heq
      have hp := List.find?_some hfind
      have hoid : old.id = di := of_decide_eq_true hp
      have hmem : di ∈ st.ids := by
        rw [hids]
        exact List.mem_map.mpr ⟨old, List.mem_of_find?_eq_some hfind, hoid⟩
      split at hst
      next hcond =>
        split at hst
        next idx hidx =>
          injection hst with hst'
          subst hst'
          have hfind' := find?_set_listIndex st.images st.ids di idx
            { id := di, path := old.path, tags := some dt,
              remark := some dr, updated := some now }
            hids hidx rfl
          exact noop _ _ now2 ((get_eq_ok_iff _ _ _).mpr hfind') rfl rfl
        next hnone =>
          exact absurd ((listIndex_eq_none_iff _ _).mp hnone)
            (not_not.mpr hmem)
      next hcond =>
        injection hst with hst'
        subst hst'
        simp only [Bool.or_eq_true, not_or, Bool.not_eq_true] at hcond
        exact noop st old now2 heq (pyNeq_eq_false_iff dt old.tags |>.mp
          hcond.1) (pyNeq_eq_false_iff dr old.remark |>.mp hcond.2)

/-- Witness for `store_unchanged_noop`: re-storing the already-stored
tags/remark of a tagged record leaves the state untouched. -/
theorem store_unchanged_noop_witness :
    Images.store
        ⟨[⟨"hb", "b.jpg", some "x", some "y", some "2024-01-01T00:00:00"⟩],
         ["hb"],
         [⟨"hb", "b.jpg", some "x", some "y", some "2024-01-01T00:00:00"⟩]⟩
        ⟨some "hb", some "x", some "y"⟩ "2025-01-01T00:00:00"
      = Except.ok
        ⟨[⟨"hb", "b.jpg", some "x", some "y", some "2024-01-01T00:00:00"⟩],
         ["hb"],
         [⟨"hb", "b.jpg", some "x", some "y", some "2024-01-01T00:00:00"⟩]⟩ :=
  (store_unchanged_noop
      ⟨[⟨"hb", "b.jpg", some "x", some "y", some "2024-01-01T00:00:00"⟩],
       ["hb"],
       [⟨"hb", "b.jpg", some "x", some "y", some "2024-01-01T00:00:00"⟩]⟩
      "hb" "x" "y" "2025-01-01T00:00:00" "2026-01-01T00:00:00").1
    ⟨"hb", "b.jpg", some "x", some "y", some "2024-01-01T00:00:00"⟩
    rfl rfl rfl

/-- C7: the initialized catalog is, up to the sorting permutation, the
persisted rows plus one new untagged record per discovered path not already
present among the persisted rows' paths, with `id` the hash of the path and
`tags`/`remark`/`updated` unset; membership in the catalog is exactly
membership in that union. -/
theorem catalog_union (hash : String → String) (files : List String)
    (tagged : List TagRecord) (st : ImagesState)
    (h : Images._load_images hash files tagged = some st) :
    st.images.Perm
      (tagged ++ (Images.newPaths files tagged).map (Images.mkUntagged hash))
    ∧ ∀ r : TagRecord, r ∈ st.images ↔
        r ∈ tagged ∨ ∃ p, p ∈ files ∧ (∀ t ∈ tagged, t.path ≠ p) ∧
          r = Images.mkUntagged hash p := by
  unfold Images._load_images at h
  split at h
  · exact absurd h (by simp)
  · cases Option.some.inj h
    have hperm := List.perm_insertionSort recOrd
      (tagged ++ (Images.newPaths files tagged).map (Images.mkUntagged hash))
    refine ⟨hperm, fun r => ?_⟩
    rw [hperm.mem_iff, List.mem_append, List.mem_map]
    constructor
    · rintro (hr | ⟨p, hp, rfl⟩)
      · exact Or.inl hr
      · rw [mem_newPaths] at hp
        exact Or.inr ⟨p, hp.1, hp.2, rfl⟩
    · rintro (hr | ⟨p, hp1, hp2, rfl⟩)
      · exact Or.inl hr
      · exact Or.inr ⟨p, (mem_newPaths files tagged p).mpr ⟨hp1, hp2⟩, rfl⟩

/-- Witness for `catalog_union` at a concrete input. -/
theorem catalog_union_witness :
    List.Perm
      [⟨"hb", "b.jpg", some "x", some "y", some "2024-01-01T00:00:00"⟩,
       ⟨"a.jpg", "a.jpg", none, none, none⟩]
      ([⟨"hb", "b.jpg", some "x", some "y", some "2024-01-01T00:00:00"⟩] ++
        (Images.newPaths ["a.jpg"]
            [⟨"hb", "b.jpg", some "x", some "y",
              some "2024-01-01T00:00:00"⟩]).map
          (Images.mkUntagged (fun s => s))) :=
  (catalog_union (fun s => s) ["a.jpg"]
      [⟨"hb", "b.jpg", some "x", some "y", some "2024-01-01T00:00:00"⟩]
      ⟨[⟨"hb", "b.jpg", some "x", some "y", some "2024-01-01T00:00:00"⟩,
        ⟨"a.jpg", "a.jpg", none, none, none⟩],
       ["hb", "a.jpg"],
       [⟨"hb", "b.jpg", some "x", some "y", some "2024-01-01T00:00:00"⟩]⟩
      rfl).1

end ImageTagger
